import Mathlib

/-!
Verification development for `histogrammer`, a letter-frequency histogram
tool (src/histogrammer.cpp).  The program is embedded shallowly: characters
are byte values (`Nat`), the `unordered_map<char, size_t>` histogram is a
total function with default value 0, `double` row-bound arithmetic is
modelled by exact rational arithmetic (`ℚ`), and the fallible parts
(`from_chars`, the `size_t` cast of `floor(log10(0))`) return `Option`.
-/

namespace Histogrammer

/-- C `isalpha` in the default "C" locale over byte values: true exactly on
the ASCII letters `A`-`Z` (65-90) and `a`-`z` (97-122). -/
def isalpha (c : Nat) : Bool :=
  (decide (65 ≤ c) && decide (c ≤ 90)) || (decide (97 ≤ c) && decide (c ≤ 122))

/-- C `tolower` in the default "C" locale: maps `A`-`Z` to `a`-`z` and leaves
every other byte value unchanged. -/
def tolower (c : Nat) : Nat :=
  if 65 ≤ c ∧ c ≤ 90 then c + 32 else c

/-- The state built by the counting loop (lines 84-94 of the source):
`hist` is the `unordered_map<char, size_t>` (reading an absent key yields a
default-constructed 0, so a total function models it), `peak` the running
maximum bin population. -/
structure HistState where
  hist : Nat → Nat
  peak : Nat

/-- State before the counting loop: empty map, `peak = 0`. -/
def initState : HistState := ⟨fun _ => 0, 0⟩

/-- One iteration of the counting loop (lines 88-94): letters are
case-folded and their bin incremented, then `peak = max(bin, peak)`;
any other character leaves the state untouched. -/
def step (s : HistState) (c : Nat) : HistState :=
  if isalpha c then
    { hist := fun x => if x = tolower c then s.hist (tolower c) + 1 else s.hist x,
      peak := max (s.hist (tolower c) + 1) s.peak }
  else s

/-- The whole counting loop over the input bytes. -/
def countText (input : List Nat) : HistState := input.foldl step initState

/-- The 26 bin keys `'a'`..`'z'` (byte values 97..122), in order, as produced
by `vws::iota(0, 26) | vws::transform` on line 86. -/
def alphabet : List Nat := (List.range 26).map (fun i => 97 + i)

/-- Maximum bin count across the 26 letter bins. -/
def maxCount (s : HistState) : Nat := (alphabet.map s.hist).foldr max 0

/-- Digit width, line 98: `static_cast<size_t>(floor(log10(peak))) + 1ULL`.
For `peak ≥ 1`, `floor(log10 peak) = Nat.log 10 peak`.  For `peak = 0`,
`log10(0)` is `-inf` and casting it to `size_t` is undefined behaviour,
modelled as `none`. -/
def digits_code (peak : Nat) : Option Nat :=
  if peak = 0 then none else some (Nat.log 10 peak + 1)

/-- Modelled from the spec (§4.2 step 1): digit width with the required
`peak == 0` special case, `digits = 1`. -/
def digits_spec (peak : Nat) : Nat :=
  if peak = 0 then 1 else Nat.log 10 peak + 1

/-- Lower bound of a row's value range, line 103:
`(static_cast<double>(r) / rows) * peak`, modelled exactly in `ℚ`. -/
def rowFloor (rows peak r : Nat) : ℚ := ((r : ℚ) / (rows : ℚ)) * (peak : ℚ)

/-- Upper bound of a row's value range, line 104. -/
def rowCeil (rows peak r : Nat) : ℚ := (((r : ℚ) + 1) / (rows : ℚ)) * (peak : ℚ)

/-- Tick decision, line 108: `(rows - 1 - r) % tickStride == 0` (all
`size_t`; inside the row loop `r ≤ rows - 1`, so Nat subtraction agrees). -/
def drawTick (rows tickStride r : Nat) : Bool :=
  decide ((rows - 1 - r) % tickStride = 0)

/-- Tick value, line 111: `static_cast<size_t>(0.5 * (rowFloor + rowCeil))`;
the quantity is non-negative, so the truncating cast is the floor. -/
def tickVal (rows peak r : Nat) : Nat :=
  ⌊(1 / 2 : ℚ) * (rowFloor rows peak r + rowCeil rows peak r)⌋₊

/-- Line 112: `tickStr.insert(tickStr.begin(), digits - tickStr.size(), ' ')`
left-pads with spaces to total width `w` (in every real call the string is
at most `w` long, where C++ unsigned subtraction and Nat subtraction agree). -/
def padLeft (w : Nat) (s : String) : String :=
  String.mk (List.replicate (w - s.length) ' ') ++ s

/-- The tick field of a row, lines 111-112: the tick value's decimal string
(empty when no tick is drawn) left-padded to width `d`. -/
def tickStr (rows tickStride peak d r : Nat) : String :=
  padLeft d (if drawTick rows tickStride r then toString (tickVal rows peak r) else "")

/-- The 26-character bar field of a row, lines 119-121: for each letter
`'a' + i` in order, `'*'` if `hist[c] > rowFloor` else `' '` (the `size_t`
count is converted to `double` for the comparison, modelled as the cast to
`ℚ`). -/
def rowBody (s : HistState) (rows r : Nat) : String :=
  String.mk ((List.range 26).map (fun i =>
    if rowFloor rows s.peak r < (s.hist (97 + i) : ℚ) then '*' else ' '))

/-- One emitted row, lines 115-122: tick field, vertical-axis `|`, bar field. -/
def rowLine (s : HistState) (rows tickStride d r : Nat) : String :=
  tickStr rows tickStride s.peak d r ++ "|" ++ rowBody s rows r

/-- The row loop, line 101: `vws::iota(0ULL, rows) | vws::reverse`, i.e.
`r = rows-1, rows-2, ..., 0`, one line per row. -/
def renderRows (s : HistState) (rows tickStride d : Nat) : List String :=
  ((List.range rows).reverse).map (rowLine s rows tickStride d)

/-- Footer axis line, line 126: `d` spaces, `+`, 26 dashes. -/
def footerAxis (d : Nat) : String :=
  String.mk (List.replicate d ' ') ++ "+" ++ String.mk (List.replicate 26 '-')

/-- Footer label line, lines 127-130: `d` spaces, `|`, the alphabet. -/
def footerLabels (d : Nat) : String :=
  String.mk (List.replicate d ' ') ++ "|" ++
    String.mk ((List.range 26).map (fun i => Char.ofNat (97 + i)))

/-- The full rendered output (rows then the two footer lines); `none` when
the digit-width computation is undefined (`peak = 0`). -/
def render (s : HistState) (rows tickStride : Nat) : Option (List String) :=
  match digits_code s.peak with
  | none => none
  | some d => some (renderRows s rows tickStride d ++ [footerAxis d, footerLabels d])

/-- C `isdigit` on the ASCII decimal digits. -/
def isdigitChar (c : Char) : Bool := decide ('0' ≤ c) && decide (c ≤ '9')

/-- Largest `size_t` value (64-bit). -/
def SIZE_MAX : Nat := 2 ^ 64 - 1

/-- Value of a string of decimal digits. -/
def digitsVal (ds : List Char) : Nat :=
  ds.foldl (fun a c => a * 10 + (c.toNat - 48)) 0

/-- `std::from_chars` into a `size_t` (line 61): consumes the maximal leading
run of decimal digits; errors when there is none (`invalid_argument`) or when
the consumed value overflows `size_t` (`result_out_of_range`). -/
def fromCharsU64 (s : List Char) : Option Nat :=
  let ds := s.takeWhile isdigitChar
  if ds.isEmpty then none
  else if digitsVal ds ≤ SIZE_MAX then some (digitsVal ds) else none

/-- The validation on line 62: accept iff `from_chars` succeeded and no
character of the value is a non-digit (rejecting trailing garbage). -/
def parseSetting (s : List Char) : Option Nat :=
  match fromCharsU64 s with
  | none => none
  | some v => if s.all isdigitChar then some v else none

/-- The `parseParam` lambda, lines 55-75: find the flag anywhere in `args`
(first occurrence); absent flag keeps the current setting; flag at the end is
a missing argument; otherwise validate the next argument. -/
def parseParam (args : List String) (flag : String) (current : Nat) : Except String Nat :=
  match args.findIdx? (· == flag) with
  | none => .ok current
  | some i =>
    match args.get? (i + 1) with
    | none => .error ("Missing argument for flag " ++ flag)
    | some v =>
      match parseSetting v.toList with
      | none => .error ("Invalid argument for flag " ++ flag)
      | some n => .ok n

/-- Outcome of one program run: a normal exit with its code, printed lines
and whether the counting/rendering core ran, or undefined behaviour
(the `size_t` cast of `floor(log10(0))` on line 98). -/
inductive ProgOutcome where
  | exited (code : Nat) (lines : List String) (coreRan : Bool)
  | crashed

/-- Hint printed when the program receives no arguments (line 19). -/
def hintLine : String :=
  "Please provide a path to a text file as an argument, --help for more details"

/-- The `--help` usage text (lines 26-33), kept as one block. -/
def usageText : String :=
  "Usage: histogrammer input_file_path [OPTIONS]"

/-- `main`, lines 16-131, as a pure function of the argument vector and a
file system (`fs` maps a path to its byte content when it can be opened). -/
def program (argv : List String) (fs : String → Option (List Nat)) : ProgOutcome :=
  if argv.length = 1 then .exited 0 [hintLine] false
  else if argv.any (· == "--help") then .exited 0 [usageText] false
  else
    match fs (argv.getD 1 "") with
    | none => .exited 1 ["File \"" ++ argv.getD 1 "" ++ "\" not found"] false
    | some content =>
      match parseParam argv "-r" 10 with
      | .error m => .exited 1 [m] false
      | .ok rows =>
        match parseParam argv "-s" 3 with
        | .error m => .exited 1 [m] false
        | .ok tickStride =>
          match render (countText content) rows tickStride with
          | none => .crashed
          | some ls => .exited 0 ls true

/-- A recognized flag occurs in `argv` followed by a value that fails the
positive-integer validation of `parseParam`. -/
def invalidFlagValue (argv : List String) (flag : String) : Prop :=
  ∃ i s, argv.findIdx? (· == flag) = some i ∧ argv.get? (i + 1) = some s ∧
    parseSetting s.toList = none

/-! ### Helper lemmas -/

theorem isalpha_iff (c : Nat) :
    isalpha c = true ↔ (65 ≤ c ∧ c ≤ 90) ∨ (97 ≤ c ∧ c ≤ 122) := by
  simp [isalpha]

theorem tolower_mem (c : Nat) (h : isalpha c = true) :
    97 ≤ tolower c ∧ tolower c ≤ 122 := by
  rcases (isalpha_iff c).1 h with h1 | h1 <;> unfold tolower <;> split <;> omega

theorem foldr_max_update (keys : List Nat) (f : Nat → Nat) (l v : Nat)
    (hmem : l ∈ keys) (hle : f l ≤ v) :
    (keys.map (fun x => if x = l then v else f x)).foldr max 0
      = max v ((keys.map f).foldr max 0) := by
  induction keys with
  | nil => cases hmem
  | cons k ks ih =>
    by_cases hk : k = l
    · subst hk
      by_cases hm : k ∈ ks
      · simp only [List.map_cons, List.foldr_cons, ih hm, if_true]
        omega
      · have hsame : ks.map (fun x => if x = k then v else f x) = ks.map f :=
          List.map_congr_left (fun x hx => by
            have : x ≠ k := fun he => hm (he ▸ hx)
            simp [this])
        simp only [List.map_cons, List.foldr_cons, hsame, if_true]
        omega
    · have hmem' : l ∈ ks := by
        rcases List.mem_cons.1 hmem with h | h
        · exact absurd h.symm hk
        · exact h
      simp only [List.map_cons, List.foldr_cons, if_neg hk, ih hmem']
      omega

theorem tolower_mem_alphabet (c : Nat) (h : isalpha c = true) :
    tolower c ∈ alphabet := by
  have hb := tolower_mem c h
  simp only [alphabet, List.mem_map, List.mem_range]
  exact ⟨tolower c - 97, by omega, by omega⟩

/-- The loop invariant: `peak` is the maximum bin count, and every bin
count is bounded by `peak`. -/
def Inv (s : HistState) : Prop :=
  s.peak = maxCount s ∧ ∀ x, s.hist x ≤ s.peak

theorem step_inv (s : HistState) (c : Nat) (h : Inv s) : Inv (step s c) := by
  obtain ⟨h1, h2⟩ := h
  by_cases ha : isalpha c
  · have hupd := foldr_max_update alphabet s.hist (tolower c)
      (s.hist (tolower c) + 1) (tolower_mem_alphabet c ha) (Nat.le_succ _)
    constructor
    · show (step s c).peak = maxCount (step s c)
      simp only [step, if_pos ha, maxCount]
      rw [hupd, h1]
      exact rfl
    · intro x
      simp only [step, if_pos ha]
      by_cases hx : x = tolower c
      · simp only [if_pos hx]
        exact Nat.le_max_left _ _
      · simp only [if_neg hx]
        exact Nat.le_trans (h2 x) (Nat.le_max_right _ _)
  · simpa [step, ha] using And.intro h1 h2

theorem foldl_step_inv (l : List Nat) (s : HistState) (h : Inv s) :
    Inv (l.foldl step s) := by
  induction l generalizing s with
  | nil => exact h
  | cons c cs ih => exact ih (step s c) (step_inv s c h)

theorem countText_inv (input : List Nat) : Inv (countText input) :=
  foldl_step_inv input initState ⟨rfl, fun _ => Nat.le_refl 0⟩

theorem foldl_step_no_letters (l : List Nat) (s : HistState)
    (h : ∀ c ∈ l, isalpha c = false) : l.foldl step s = s := by
  induction l generalizing s with
  | nil => rfl
  | cons c cs ih =>
    have hc : isalpha c = false := h c (List.mem_cons_self c cs)
    have hs : step s c = s := by simp [step, hc]
    rw [List.foldl_cons, hs]
    exact ih s (fun d hd => h d (List.mem_cons_of_mem c hd))

/-! ### Claims -/

/-- C1: the spec demands `digits = 1` when `peak = 0`, but line 98 of the
source computes `static_cast<size_t>(floor(log10(0)))`, a cast of `-inf`
that is undefined behaviour (`digits_code 0 = none`), diverging from
`digits_spec 0 = 1`.  For `peak ≥ 1` the code's digit width is the number
of decimal digits of `peak`, as claimed. -/
theorem C1_digit_width :
    digits_code 0 = none ∧ digits_spec 0 = 1 ∧
    ∀ peak : Nat, 1 ≤ peak →
      digits_code peak = some ((Nat.digits 10 peak).length) ∧
      digits_code peak = some (digits_spec peak) := by
  refine ⟨rfl, rfl, fun peak hp => ?_⟩
  have hne : peak ≠ 0 := by omega
  constructor
  · simp [digits_code, hne, Nat.digits_len 10 peak (by norm_num) hne]
  · simp [digits_code, digits_spec, hne]

theorem C1_digit_width_witness :
    digits_code 0 = none ∧ digits_spec 0 = 1 ∧
    (digits_code 100 = some ((Nat.digits 10 100).length) ∧
      digits_code 100 = some (digits_spec 100)) :=
  ⟨C1_digit_width.1, C1_digit_width.2.1, C1_digit_width.2.2 100 (by norm_num)⟩

/-- C2: a character changes the counting state iff it is an ASCII letter:
a letter increments exactly the bin of its lowercase form (a key in 97..122),
any other character leaves the state untouched, and an uppercase letter `u`
selects the same bin as its lowercase counterpart `u + 32`. -/
theorem C2_letter_selectivity (s : HistState) (c : Nat) :
    (isalpha c = true →
      97 ≤ tolower c ∧ tolower c ≤ 122 ∧
      (step s c).hist (tolower c) = s.hist (tolower c) + 1 ∧
      ∀ x, x ≠ tolower c → (step s c).hist x = s.hist x) ∧
    (isalpha c = false → step s c = s) ∧
    (∀ u, 65 ≤ u → u ≤ 90 → tolower u = u + 32 ∧ tolower (u + 32) = u + 32) := by
  refine ⟨fun h => ?_, fun h => by simp [step, h], fun u h1 h2 => ?_⟩
  · obtain ⟨hb1, hb2⟩ := tolower_mem c h
    refine ⟨hb1, hb2, ?_, fun x hx => ?_⟩
    · simp [step, h]
    · simp [step, h, hx]
  · constructor
    · unfold tolower
      rw [if_pos ⟨h1, h2⟩]
    · unfold tolower
      rw [if_neg (by omega)]

theorem C2_letter_selectivity_witness :
    (step initState 65).hist 97 = 1 ∧ step initState 48 = initState := by
  constructor
  · have h := ((C2_letter_selectivity initState 65).1 (by decide)).2.2.1
    have ht : tolower 65 = 97 := by decide
    rw [ht] at h
    exact h
  · exact (C2_letter_selectivity initState 48).2.1 (by decide)

/-- C3: after counting any input, `peak` equals the maximum count across
the 26 bins, every count is a non-negative integer, and a letter-free
(in particular empty) input leaves every bin 0 and `peak = 0`. -/
theorem C3_peak_invariant (input : List Nat) :
    (countText input).peak = maxCount (countText input) ∧
    (∀ x, 0 ≤ (countText input).hist x) ∧
    ((∀ c ∈ input, isalpha c = false) →
      (∀ x, (countText input).hist x = 0) ∧ (countText input).peak = 0) := by
  refine ⟨(countText_inv input).1, fun x => Nat.zero_le _, fun h => ?_⟩
  have h0 : countText input = initState := foldl_step_no_letters input initState h
  rw [h0]
  exact ⟨fun x => rfl, rfl⟩

theorem C3_peak_invariant_witness :
    ((countText [49, 32]).peak = maxCount (countText [49, 32]) ∧
      0 ≤ (countText [49, 32]).hist 97) ∧
    (countText [49, 32]).hist 97 = 0 ∧ (countText [49, 32]).peak = 0 := by
  have h := C3_peak_invariant [49, 32]
  have h2 := h.2.2 (by decide)
  exact ⟨⟨h.1, h.2.1 97⟩, h2.1 97, h2.2⟩

/-- C4: for `rows ≥ 1` and `tickStride ≥ 1`, a row `r` (0-indexed from the
bottom) carries a tick iff `tickStride` divides `rows - 1 - r` (i.e.
`(rows - 1 - r) % tickStride = 0`), and the topmost emitted row
`r = rows - 1` always carries one. -/
theorem C4_tick_placement (rows ts r : Nat) (hrows : 1 ≤ rows) (hts : 1 ≤ ts)
    (hr : r < rows) :
    (drawTick rows ts r = true ↔ ts ∣ (rows - 1 - r)) ∧
    drawTick rows ts (rows - 1) = true := by
  constructor
  · unfold drawTick
    rw [decide_eq_true_iff]
    exact Nat.dvd_iff_mod_eq_zero.symm
  · unfold drawTick
    rw [decide_eq_true_iff]
    simp

theorem C4_tick_placement_witness :
    (drawTick 4 2 3 = true ↔ 2 ∣ (4 - 1 - 3)) ∧ drawTick 4 2 (4 - 1) = true := by
  have h := C4_tick_placement 4 2 3 (by decide) (by decide) (by decide)
  exact ⟨h.1, h.2⟩

/-- C5: on a tick row, the printed tick value is the floored midpoint of the
row's value range, `⌊(rowFloor + rowCeil) / 2⌋ = ((2r + 1) * peak) / (2 * rows)`
(Nat division), and the tick field is that value's decimal string left-padded
with spaces to total width `digits`. -/
theorem C5_tick_value (rows ts peak d r : Nat) (hrows : 1 ≤ rows)
    (ht : drawTick rows ts r = true) :
    tickVal rows peak r = ((2 * r + 1) * peak) / (2 * rows) ∧
    tickStr rows ts peak d r = padLeft d (toString (((2 * r + 1) * peak) / (2 * rows))) := by
  have key : tickVal rows peak r = ((2 * r + 1) * peak) / (2 * rows) := by
    have harg : (1 / 2 : ℚ) * (rowFloor rows peak r + rowCeil rows peak r)
        = (((2 * r + 1) * peak : ℕ) : ℚ) / ((2 * rows : ℕ) : ℚ) := by
      have hrQ : ((rows : ℚ)) ≠ 0 := Nat.cast_ne_zero.mpr (by omega)
      unfold rowFloor rowCeil
      push_cast
      field_simp
      ring
    unfold tickVal
    rw [harg, Nat.floor_div_eq_div]
  refine ⟨key, ?_⟩
  unfold tickStr
  rw [if_pos ht, key]

theorem C5_tick_value_witness :
    tickVal 4 4 3 = ((2 * 3 + 1) * 4) / (2 * 4) ∧
    tickStr 4 2 4 1 3 = padLeft 1 (toString (((2 * 3 + 1) * 4) / (2 * 4))) :=
  C5_tick_value 4 2 4 1 3 (by decide) (by decide)

/-- C6: the row loop emits `rows` lines, the `i`-th emitted line (top to
bottom) being the row with index `r = rows - 1 - i`; each line is the tick
field, then the vertical-axis `|`, then one marker per letter `a`..`z` in
order, the marker of letter `'a' + j` being `'*'` iff that letter's count
strictly exceeds `rowFloor = (r / rows) * peak` (real-valued division). -/
theorem C6_row_generation (s : HistState) (rows ts d : Nat) (hrows : 1 ≤ rows) :
    (renderRows s rows ts d).length = rows ∧
    (∀ i, i < rows →
      (renderRows s rows ts d)[i]? = some (rowLine s rows ts d (rows - 1 - i))) ∧
    (∀ r, rowLine s rows ts d r = tickStr rows ts s.peak d r ++ "|" ++ rowBody s rows r) ∧
    (∀ r j, j < 26 →
      (rowBody s rows r).toList[j]? =
        some (if ((r : ℚ) / (rows : ℚ)) * (s.peak : ℚ) < (s.hist (97 + j) : ℚ)
          then '*' else ' ')) := by
  refine ⟨by simp [renderRows], fun i hi => ?_, fun r => rfl, fun r j hj => ?_⟩
  · unfold renderRows
    rw [List.getElem?_map, List.getElem?_reverse (by simpa using hi)]
    simp [List.getElem?_range (by omega : rows - 1 - i < rows)]
  · show ((List.range 26).map _)[j]? = _
    rw [List.getElem?_map]
    simp [List.getElem?_range hj, rowFloor]

theorem C6_row_generation_witness :
    (renderRows (countText [97]) 2 1 1).length = 2 ∧
    (renderRows (countText [97]) 2 1 1)[0]? =
      some (rowLine (countText [97]) 2 1 1 (2 - 1 - 0)) ∧
    rowLine (countText [97]) 2 1 1 0 =
      tickStr 2 1 (countText [97]).peak 1 0 ++ "|" ++ rowBody (countText [97]) 2 0 ∧
    (rowBody (countText [97]) 2 0).toList[0]? =
      some (if ((0 : ℚ) / (2 : ℚ)) * ((countText [97]).peak : ℚ)
          < ((countText [97]).hist (97 + 0) : ℚ) then '*' else ' ') := by
  have h := C6_row_generation (countText [97]) 2 1 1 (by decide)
  exact ⟨h.1, h.2.1 0 (by decide), h.2.2.1 0, h.2.2.2 0 0 (by decide)⟩

/-- C7: when counting produced `peak = 0`, every row's `rowFloor` is 0 and
every bar marker of every row is the blank `' '`; this falls out of the
branch-free `rowFloor`/`rowBody` formulas (the only special-casing issue in
the program concerns the digit width, settled under C1). -/
theorem C7_zero_peak_blank (input : List Nat) (rows r j : Nat)
    (hpeak : (countText input).peak = 0) (hj : j < 26) :
    rowFloor rows (countText input).peak r = 0 ∧
    (rowBody (countText input) rows r).toList[j]? = some ' ' := by
  have hc : (countText input).hist (97 + j) = 0 := by
    have h2 := (countText_inv input).2 (97 + j)
    omega
  constructor
  · rw [hpeak]
    unfold rowFloor
    simp
  · show ((List.range 26).map _)[j]? = _
    rw [List.getElem?_map]
    simp [List.getElem?_range hj, hc, hpeak, rowFloor]

theorem C7_zero_peak_blank_witness :
    rowFloor 3 (countText []).peak 1 = 0 ∧
    (rowBody (countText []) 3 1).toList[5]? = some ' ' :=
  C7_zero_peak_blank [] 3 1 5 (by decide) (by decide)

/-- C8: for a fixed count `k`, the filled region of a bar is contiguous from
the bottom: if `k` exceeds `rowFloor` of row `r`, it exceeds `rowFloor` of
every lower row `r' < r`, because `rowFloor` is monotone in the row index. -/
theorem C8_contiguous_fill (rows peak k r r' : Nat) (hrows : 1 ≤ rows)
    (hfill : rowFloor rows peak r < (k : ℚ)) (hr : r' < r) :
    rowFloor rows peak r' < (k : ℚ) := by
  have hmono : rowFloor rows peak r' ≤ rowFloor rows peak r := by
    unfold rowFloor
    have hc : (0 : ℚ) < (rows : ℚ) := by
      exact_mod_cast Nat.lt_of_lt_of_le Nat.zero_lt_one hrows
    have h1 : (r' : ℚ) ≤ (r : ℚ) := by exact_mod_cast Nat.le_of_lt hr
    have h2 : (r' : ℚ) / (rows : ℚ) ≤ (r : ℚ) / (rows : ℚ) :=
      div_le_div_of_nonneg_right h1 hc.le
    exact mul_le_mul_of_nonneg_right h2 (Nat.cast_nonneg peak)
  exact lt_of_le_of_lt hmono hfill

theorem C8_contiguous_fill_witness :
    rowFloor 4 4 1 < ((4 : Nat) : ℚ) :=
  C8_contiguous_fill 4 4 4 2 1 (by decide) (by norm_num [rowFloor]) (by decide)

theorem parseParam_invalid (argv : List String) (flag : String) (cur : Nat)
    (h : invalidFlagValue argv flag) :
    parseParam argv flag cur = .error ("Invalid argument for flag " ++ flag) := by
  obtain ⟨i, s, h1, h2, h3⟩ := h
  unfold parseParam
  rw [h1]
  dsimp only
  rw [h2]
  dsimp only
  rw [h3]

/-- C9: in an invocation that reaches flag parsing (some arguments, no
`--help`, openable file), if `-r` or `-s` is followed by a value rejected by
the positive-integer validation, the program prints one message line and
exits with code 1, never running the counting/rendering core. -/
theorem C9_invalid_flag_argument (argv : List String)
    (fs : String → Option (List Nat)) (content : List Nat)
    (hlen : argv.length ≠ 1)
    (hhelp : argv.any (· == "--help") = false)
    (hfile : fs (argv.getD 1 "") = some content)
    (hbad : invalidFlagValue argv "-r" ∨ invalidFlagValue argv "-s") :
    ∃ m, program argv fs = .exited 1 [m] false := by
  unfold program
  rw [if_neg hlen, if_neg (by simp [hhelp]), hfile]
  rcases hbad with hr | hs
  · rw [parseParam_invalid argv "-r" 10 hr]
    exact ⟨_, rfl⟩
  · cases hres : parseParam argv "-r" 10 with
    | error m => exact ⟨m, rfl⟩
    | ok rows =>
      rw [parseParam_invalid argv "-s" 3 hs]
      exact ⟨_, rfl⟩

theorem C9_invalid_flag_argument_witness :
    ∃ m, program ["histogrammer", "input.txt", "-r", "abc"] (fun _ => some []) =
      .exited 1 [m] false :=
  C9_invalid_flag_argument ["histogrammer", "input.txt", "-r", "abc"]
    (fun _ => some []) [] (by decide) (by decide) rfl
    (Or.inl ⟨2, "abc", by decide, rfl, by decide⟩)

/-- C9 counterexample: the value `0` is not a positive integer, yet
`-r 0` passes the validation (it is all digits, in range, and parses), so
the program does not print a message or exit with code 1 — it runs the core
with `rows = 0` and exits 0, refuting the claim as literally stated. -/
theorem C9_flag_zero_accepted :
    program ["histogrammer", "f", "-r", "0"] (fun _ => some [97]) =
      .exited 0 [footerAxis 1, footerLabels 1] true := by
  have hd : digits_code (countText [97]).peak = some 1 := by
    have hpeak : (countText [97]).peak = 1 := rfl
    rw [hpeak]
    unfold digits_code
    rw [if_neg one_ne_zero, Nat.log_one_right]
  have hr : parseParam ["histogrammer", "f", "-r", "0"] "-r" 10 = .ok 0 := rfl
  have hs : parseParam ["histogrammer", "f", "-r", "0"] "-s" 3 = .ok 3 := rfl
  unfold program
  rw [if_neg (by decide), if_neg (by decide)]
  dsimp only
  rw [hr]
  dsimp only
  rw [hs]
  dsimp only
  unfold render
  rw [hd]
  rfl

/-- C10: invoked with no arguments at all (`argc = 1`), the program prints
the one-line hint and exits with code 0; the outcome does not consult the
file system and the core does not run. -/
theorem C10_no_arguments (name : String) (fs fs' : String → Option (List Nat)) :
    program [name] fs = .exited 0 [hintLine] false ∧
    program [name] fs = program [name] fs' := by
  constructor <;> simp [program]

end Histogrammer
